import Mathlib

/-!
Shallow embedding of the streaming chat-completion consumer of
`sdk/nexent/core/models/openai_llm.py` (class `OpenAIModel`).

`OpenAIModel.__call__` issues a streaming request, consumes chunks in a
loop, demultiplexes reasoning deltas from content deltas, records
first-token and per-token metrics through an optional token tracker,
polls a shared stop event once per chunk, extracts usage counts from the
terminal chunk, and on success builds a `ChatMessage`; exceptions are
recorded as monitoring events and re-raised, with a special
classification for messages containing `context_length_exceeded`.
`check_connectivity` issues a minimal non-streaming request and converts
any exception into a `false` result.

The transport is modelled as the list of chunks it delivers plus an
optional exception it raises after the last delivered chunk; the stop
event is modelled as the sequence of readings the per-iteration
check observes (`stop i` is the value read by the check that follows the
processing of chunk `i`).  Side effects (monitoring span events, token
tracker calls, observer calls, the model object token-count fields)
are made explicit in the result record.
-/

namespace Nexent

/-- Usage summary carried by a terminal chunk: `prompt_tokens`,
`completion_tokens` (optional, modelling the `hasattr` check in the
source) and `total_tokens`. -/
structure Usage where
  prompt_tokens : Nat
  completion_tokens : Option Nat
  total_tokens : Nat
deriving DecidableEq, Repr

/-- Model of `chunk.choices[0].delta`: optional content delta, optional
`reasoning_content` (absent attribute modelled as `none`), optional role
tag. -/
structure Delta where
  content : Option String
  reasoning_content : Option String
  role : Option String
deriving DecidableEq, Repr

/-- One unit of the incoming stream. -/
structure StreamChunk where
  delta : Delta
  usage : Option Usage
deriving DecidableEq, Repr

/-- A Python exception, reduced to its class name and its `str(e)`. -/
structure Exn where
  type : String
  msg : String
deriving DecidableEq, Repr

/-- Monitoring span events emitted through `self._monitoring`. -/
inductive MEvent where
  | completion_started
  | model_stopped (reason : String)
  | error_occurred (error_type : String) (error_message : String)
  | completion_finished (output_length : Nat) (chunk_count : Nat)
deriving DecidableEq, Repr

/-- The returned message (after `model_dump` / `from_dict`), reduced to
the fields the core sets: role and content. -/
structure ChatMessage where
  role : String
  content : String
deriving DecidableEq, Repr

/-- Mutable token-count fields of the model object
(`last_input_token_count`, `last_output_token_count`). -/
structure ModelState where
  last_input_token_count : Nat
  last_output_token_count : Nat
deriving DecidableEq, Repr

/-- Test `startsWithSeq p l` : `p` is an initial segment of `l`. -/
def startsWithSeq : List Char → List Char → Bool
  | [], _ => true
  | _ :: _, [] => false
  | p :: ps, c :: cs => (p = c) && startsWithSeq ps cs

/-- Test `containsSeq p l` : `p` occurs contiguously somewhere in `l`. -/
def containsSeq (pat : List Char) : List Char → Bool
  | [] => startsWithSeq pat []
  | c :: cs => startsWithSeq pat (c :: cs) || containsSeq pat cs

/-- Model of the Python substring test `pat in hay`. -/
def strContains (hay pat : String) : Bool :=
  containsSeq pat.toList hay.toList

/-- The loop-local state of `__call__`: `chunk_list`, `token_join`,
`role`, the `first_token_received` latch, plus explicit records of the
side effects performed so far (token tracker calls, observer calls,
monitoring events). -/
structure LoopState where
  chunk_list : List StreamChunk
  token_join : List String
  role : Option String
  first_token_received : Bool
  firstTokenRecords : Nat
  firstTokenAt : Option Nat
  tokenRecords : List String
  reasoningSink : List String
  contentSink : List String
  events : List MEvent
deriving DecidableEq, Repr

/-- The body of the `for chunk in current_request` loop for one chunk
(lines 64-91 of the source), excluding the stop-event check.  `i` is the
0-based index of the chunk, used only to record when the first token was
observed. -/
def processChunk (token_tracker : Bool) (i : Nat) (c : StreamChunk) (s : LoopState) :
    LoopState :=
  let new_token := c.delta.content
  let reasoning_content := c.delta.reasoning_content
  let s :=
    match reasoning_content with
    | some rc =>
        let s := { s with reasoningSink := s.reasoningSink ++ [rc] }
        if token_tracker && !s.first_token_received then
          { s with firstTokenRecords := s.firstTokenRecords + 1,
                   firstTokenAt := some i,
                   first_token_received := true }
        else s
    | none => s
  let s :=
    match new_token with
    | some tok =>
        let s :=
          if token_tracker && !s.first_token_received then
            { s with firstTokenRecords := s.firstTokenRecords + 1,
                     firstTokenAt := some i,
                     first_token_received := true }
          else s
        let s :=
          if token_tracker then { s with tokenRecords := s.tokenRecords ++ [tok] }
          else s
        { s with contentSink := s.contentSink ++ [tok],
                 token_join := s.token_join ++ [tok],
                 role := c.delta.role }
    | none => s
  { s with chunk_list := s.chunk_list ++ [c] }

/-- The exception raised when the stop event is observed set
(line 96-97 of the source). -/
def stopExn : Exn :=
  { type := "RuntimeError", msg := "Model is interrupted by stop event" }

/-- The stream-consumption loop (lines 64-97): process each chunk, then
poll the stop event; if it reads set, emit a `model_stopped` event (when
a tracker is present) and raise.  Returns the loop state at exit and the
raised exception, if any. -/
def consumeLoop (token_tracker : Bool) (stop : Nat → Bool) :
    List StreamChunk → Nat → LoopState → LoopState × Option Exn
  | [], _, s => (s, none)
  | c :: rest, i, s =>
      let s := processChunk token_tracker i c s
      if stop i then
        let s :=
          if token_tracker then
            { s with events := s.events ++ [MEvent.model_stopped "stop_event_set"] }
          else s
        (s, some stopExn)
      else
        consumeLoop token_tracker stop rest (i + 1) s

deriving instance DecidableEq for Except

/-- Everything observable about one invocation of `__call__`: the
returned message or raised exception, the model object token-count
fields afterwards, the monitoring events, the tracker and observer side
effects, and how many chunks entered `chunk_list`. -/
structure CallResult where
  result : Except Exn ChatMessage
  state : ModelState
  events : List MEvent
  firstTokenRecords : Nat
  firstTokenAt : Option Nat
  tokenRecords : List String
  reasoningSink : List String
  contentSink : List String
  flushed : Bool
  recordedCompletion : Option (Nat × Nat)
  constructedRole : Option String
  chunksProcessed : Nat
deriving DecidableEq, Repr

/-- The `except Exception as e` handler (lines 138-145): emit an
`error_occurred` event when a tracker is present, then re-raise — as
`ValueError("Token limit exceeded: ...")` when `str(e)` contains
`context_length_exceeded`, unchanged otherwise. -/
def handleException (token_tracker : Bool) (e : Exn) (s : LoopState) :
    Except Exn ChatMessage × List MEvent :=
  let events :=
    if token_tracker then s.events ++ [MEvent.error_occurred e.type e.msg]
    else s.events
  if strContains e.msg "context_length_exceeded" then
    (Except.error { type := "ValueError", msg := "Token limit exceeded: " ++ e.msg },
     events)
  else
    (Except.error e, events)

/-- The usage-extraction step of lines 104-115, as a pair
(input tokens, output tokens). -/
def extractUsage (chunk_list : List StreamChunk) : Nat × Nat :=
  match chunk_list.getLast? with
  | some last =>
      match last.usage with
      | some usage =>
          (usage.prompt_tokens, usage.completion_tokens.getD usage.total_tokens)
      | none => (0, 0)
  | none => (0, 0)

/-- Python truthiness of the role argument at line 131
(`role if role else "assistant"`): both a missing role tag and an
empty-string role tag are falsy and fall back to "assistant". -/
def pyRoleOrDefault (r : Option String) : String :=
  match r with
  | none => "assistant"
  | some v => if v = "" then "assistant" else v

/-- The pydantic `ValidationError` raised by the `ChatCompletionMessage`
constructor at line 131: its `role` field has type
`Literal["assistant"]`, so any other role value fails validation.  The
message of the real exception names the offending input value, which is
what the marker substring test of the handler sees. -/
def validationErr (role : String) : Exn :=
  { type := "ValidationError",
    msg := "1 validation error for ChatCompletionMessage: role: Input should be assistant, input_value=" ++ role }

/-- Finalization on stream exhaustion (lines 99-136): flush the
observer, join the tokens, extract usage and write the token-count
fields of the model object (lines 111-115), report the completion to
the tracker, emit `completion_finished`, and only then construct the
`ChatCompletionMessage` (line 131).  The constructor validates
`role : Literal["assistant"]`, so a truthy non-assistant role tag makes
it raise; that exception reaches the same `except` handler — after the
token-count fields were already written — and the `error_occurred`
event lands after `completion_finished`.  On success the role of the
message is additionally overwritten with the assistant role
(line 135). -/
def finalizeResult (token_tracker : Bool) (s : LoopState) : CallResult :=
  let model_output := String.join s.token_join
  let usagePair := extractUsage s.chunk_list
  let st2 : ModelState :=
    { last_input_token_count := usagePair.1,
      last_output_token_count := usagePair.2 }
  let events :=
    if token_tracker then
      s.events ++
        [MEvent.completion_finished model_output.length s.chunk_list.length]
    else s.events
  let constructedRole := pyRoleOrDefault s.role
  if constructedRole = "assistant" then
    let message : ChatMessage := { role := constructedRole, content := model_output }
    let message := { message with role := "assistant" }
    { result := Except.ok message, state := st2, events := events,
      firstTokenRecords := s.firstTokenRecords, firstTokenAt := s.firstTokenAt,
      tokenRecords := s.tokenRecords, reasoningSink := s.reasoningSink,
      contentSink := s.contentSink, flushed := true,
      recordedCompletion := if token_tracker then some usagePair else none,
      constructedRole := some constructedRole,
      chunksProcessed := s.chunk_list.length }
  else
    let e := validationErr constructedRole
    let p2 := handleException token_tracker e { s with events := events }
    { result := p2.1, state := st2, events := p2.2,
      firstTokenRecords := s.firstTokenRecords, firstTokenAt := s.firstTokenAt,
      tokenRecords := s.tokenRecords, reasoningSink := s.reasoningSink,
      contentSink := s.contentSink, flushed := true,
      recordedCompletion := if token_tracker then some usagePair else none,
      constructedRole := some constructedRole,
      chunksProcessed := s.chunk_list.length }

/-- Finalization of `__call__` from the loop outcome: on a raised
exception (from the stop check, or the transport fault raised after the
last delivered chunk) run the handler with the model state untouched;
otherwise run the finalization of lines 99-136. -/
def finishCall (token_tracker : Bool) (st : ModelState) (fault : Option Exn)
    (p : LoopState × Option Exn) : CallResult :=
  let s := p.1
  match p.2 with
  | some e =>
      let (res, events) := handleException token_tracker e s
      { result := res, state := st, events := events,
        firstTokenRecords := s.firstTokenRecords, firstTokenAt := s.firstTokenAt,
        tokenRecords := s.tokenRecords, reasoningSink := s.reasoningSink,
        contentSink := s.contentSink, flushed := false,
        recordedCompletion := none, constructedRole := none,
        chunksProcessed := s.chunk_list.length }
  | none =>
      match fault with
      | some e =>
          let (res, events) := handleException token_tracker e s
          { result := res, state := st, events := events,
            firstTokenRecords := s.firstTokenRecords, firstTokenAt := s.firstTokenAt,
            tokenRecords := s.tokenRecords, reasoningSink := s.reasoningSink,
            contentSink := s.contentSink, flushed := false,
            recordedCompletion := none, constructedRole := none,
            chunksProcessed := s.chunk_list.length }
      | none => finalizeResult token_tracker s

/-- The initial loop state at entry of `__call__` (lines 30-61):
empty accumulators, and — when a tracker is present — the
`completion_started` event already emitted. -/
def initState (token_tracker : Bool) : LoopState :=
  { chunk_list := [], token_join := [], role := none,
    first_token_received := false, firstTokenRecords := 0, firstTokenAt := none,
    tokenRecords := [], reasoningSink := [], contentSink := [],
    events := if token_tracker then [MEvent.completion_started] else [] }

/-- Model of `OpenAIModel.__call__`, as a function of the tracker presence,
the prior token-count fields of the model object, the chunks the transport
delivers, the stop-event readings, and the exception (if any) the
transport raises after its last chunk. -/
def OpenAIModel.call (token_tracker : Bool) (st : ModelState)
    (chunks : List StreamChunk) (stop : Nat → Bool) (fault : Option Exn) :
    CallResult :=
  finishCall token_tracker st fault
    (consumeLoop token_tracker stop chunks 0 (initState token_tracker))

/-- Model of `OpenAIModel.check_connectivity`: build the one-message test request,
submit it through the transport, return `true` on success; any exception
is caught and converted to `false` (lines 147-176). -/
def check_connectivity (create : List (String × String) → Except Exn Unit) : Bool :=
  let test_message := [("user", "Hello")]
  match create test_message with
  | Except.ok _ => true
  | Except.error _ => false

/-- A chunk carries a delta (of either kind) exactly when its
`reasoning_content` or `content` is present. -/
def hasDelta (c : StreamChunk) : Bool :=
  c.delta.reasoning_content.isSome || c.delta.content.isSome

/-- The per-chunk update of the `role` variable (line 89 of the source):
a content-bearing chunk overwrites it with its own role tag. -/
def roleStep (r : Option String) (c : StreamChunk) : Option String :=
  if c.delta.content.isSome then c.delta.role else r

theorem processChunk_chunk_list (tt : Bool) (i : Nat) (c : StreamChunk) (s : LoopState) :
    (processChunk tt i c s).chunk_list = s.chunk_list ++ [c] := by
  unfold processChunk
  cases hr : c.delta.reasoning_content <;> cases hn : c.delta.content <;>
    simp [hr, hn] <;> split_ifs <;> rfl

theorem processChunk_events (tt : Bool) (i : Nat) (c : StreamChunk) (s : LoopState) :
    (processChunk tt i c s).events = s.events := by
  unfold processChunk
  cases hr : c.delta.reasoning_content <;> cases hn : c.delta.content <;>
    simp [hr, hn] <;> split_ifs <;> rfl

theorem processChunk_token_join (tt : Bool) (i : Nat) (c : StreamChunk) (s : LoopState) :
    (processChunk tt i c s).token_join = s.token_join ++ c.delta.content.toList := by
  unfold processChunk
  cases hr : c.delta.reasoning_content <;> cases hn : c.delta.content <;>
    simp [hr, hn] <;> split_ifs <;> rfl

theorem processChunk_role (tt : Bool) (i : Nat) (c : StreamChunk) (s : LoopState) :
    (processChunk tt i c s).role = roleStep s.role c := by
  unfold processChunk roleStep
  cases hr : c.delta.reasoning_content <;> cases hn : c.delta.content <;>
    simp [hr, hn] <;> split_ifs <;> rfl

theorem processChunk_nodelta (tt : Bool) (i : Nat) (c : StreamChunk) (s : LoopState)
    (hr : c.delta.reasoning_content = none) (hn : c.delta.content = none) :
    processChunk tt i c s = { s with chunk_list := s.chunk_list ++ [c] } := by
  unfold processChunk
  simp [hr, hn]

theorem processChunk_first_preserved (tt : Bool) (i : Nat) (c : StreamChunk)
    (s : LoopState) (h : s.first_token_received = true) :
    (processChunk tt i c s).first_token_received = true ∧
    (processChunk tt i c s).firstTokenRecords = s.firstTokenRecords ∧
    (processChunk tt i c s).firstTokenAt = s.firstTokenAt := by
  unfold processChunk
  cases hr : c.delta.reasoning_content <;> cases hn : c.delta.content <;>
    simp [hr, hn, h] <;> split_ifs <;> simp [h]

theorem processChunk_records_first (i : Nat) (c : StreamChunk) (s : LoopState)
    (h : s.first_token_received = false) (hd : hasDelta c = true) :
    (processChunk true i c s).first_token_received = true ∧
    (processChunk true i c s).firstTokenRecords = s.firstTokenRecords + 1 ∧
    (processChunk true i c s).firstTokenAt = some i := by
  unfold processChunk
  unfold hasDelta at hd
  cases hr : c.delta.reasoning_content <;> cases hn : c.delta.content <;>
    simp [hr, hn, h] <;> simp [hr, hn] at hd

theorem handleException_fst (tt : Bool) (e : Exn) (s : LoopState) :
    (handleException tt e s).1 =
      (if strContains e.msg "context_length_exceeded" then
        Except.error { type := "ValueError", msg := "Token limit exceeded: " ++ e.msg }
      else Except.error e) := by
  unfold handleException
  split_ifs <;> rfl

theorem handleException_snd (tt : Bool) (e : Exn) (s : LoopState) :
    (handleException tt e s).2 =
      (if tt then s.events ++ [MEvent.error_occurred e.type e.msg] else s.events) := by
  unfold handleException
  split_ifs <;> rfl

theorem handleException_fst_isError (tt : Bool) (e : Exn) (s : LoopState)
    (m : ChatMessage) : (handleException tt e s).1 ≠ Except.ok m := by
  rw [handleException_fst]
  split_ifs <;> simp

theorem consumeLoop_no_stop (tt : Bool) (stop : Nat → Bool) :
    ∀ (chunks : List StreamChunk) (i : Nat) (s : LoopState),
      (∀ k, k < chunks.length → stop (i + k) = false) →
      (consumeLoop tt stop chunks i s).2 = none ∧
      (consumeLoop tt stop chunks i s).1.token_join
        = s.token_join ++ chunks.filterMap (fun c => c.delta.content) ∧
      (consumeLoop tt stop chunks i s).1.chunk_list = s.chunk_list ++ chunks ∧
      (consumeLoop tt stop chunks i s).1.events = s.events ∧
      (consumeLoop tt stop chunks i s).1.role = chunks.foldl roleStep s.role
  | [], i, s, _ => by simp [consumeLoop]
  | c :: rest, i, s, h => by
      have h0 : stop i = false := by simpa using h 0 (Nat.succ_pos _)
      have hrest : ∀ k, k < rest.length → stop (i + 1 + k) = false := by
        intro k hk
        have := h (k + 1) (by simpa using Nat.succ_lt_succ hk)
        have harith : i + (k + 1) = i + 1 + k := by omega
        rwa [harith] at this
      have ih := consumeLoop_no_stop tt stop rest (i + 1) (processChunk tt i c s) hrest
      rcases ih with ⟨ih1, ih2, ih3, ih4, ih5⟩
      refine ⟨?_, ?_, ?_, ?_, ?_⟩ <;>
        simp only [consumeLoop, h0, Bool.false_eq_true, if_false]
      · exact ih1
      · rw [ih2, processChunk_token_join]
        cases hn : c.delta.content <;> simp [hn, List.filterMap_cons]
      · rw [ih3, processChunk_chunk_list]
        simp
      · rw [ih4, processChunk_events]
      · rw [ih5, processChunk_role]
        simp [List.foldl_cons]

theorem consumeLoop_stop_bound (tt : Bool) (stop : Nat → Bool) :
    ∀ (chunks : List StreamChunk) (i k : Nat) (s : LoopState),
      k < chunks.length → stop (i + k) = true →
      (consumeLoop tt stop chunks i s).2 = some stopExn ∧
      (consumeLoop tt stop chunks i s).1.chunk_list.length
        ≤ s.chunk_list.length + k + 1
  | [], _, k, _, hk, _ => absurd hk (by simp)
  | c :: rest, i, k, s, hk, hs => by
      by_cases h0 : stop i = true
      · have hlen : (processChunk tt i c s).chunk_list.length
            = s.chunk_list.length + 1 := by
          rw [processChunk_chunk_list]; simp
        refine ⟨?_, ?_⟩
        · simp only [consumeLoop, h0, if_true]
        · simp only [consumeLoop, h0, if_true]
          split_ifs <;> simp [hlen]
      · have h0f : stop i = false := by
          cases hb : stop i
          · rfl
          · exact absurd hb h0
        have hk0 : k ≠ 0 := by
          intro hk0
          rw [hk0, Nat.add_zero] at hs
          exact h0 hs
        obtain ⟨k2, rfl⟩ : ∃ k2, k = k2 + 1 :=
          ⟨k - 1, by omega⟩
        have hs2 : stop (i + 1 + k2) = true := by
          have harith : i + (k2 + 1) = i + 1 + k2 := by omega
          rwa [harith] at hs
        have hk2 : k2 < rest.length := by
          simp only [List.length_cons] at hk; omega
        have ih := consumeLoop_stop_bound tt stop rest (i + 1) k2
          (processChunk tt i c s) hk2 hs2
        rcases ih with ⟨ih1, ih2⟩
        have hlen : (processChunk tt i c s).chunk_list.length
            = s.chunk_list.length + 1 := by
          rw [processChunk_chunk_list]; simp
        refine ⟨?_, ?_⟩ <;>
          simp only [consumeLoop, h0f, Bool.false_eq_true, if_false]
        · exact ih1
        · omega

theorem consumeLoop_none_role (tt : Bool) (stop : Nat → Bool) :
    ∀ (chunks : List StreamChunk) (i : Nat) (s : LoopState),
      (consumeLoop tt stop chunks i s).2 = none →
      (consumeLoop tt stop chunks i s).1.role = chunks.foldl roleStep s.role
  | [], _, _, _ => by simp [consumeLoop]
  | c :: rest, i, s, h => by
      by_cases h0 : stop i = true
      · exfalso
        simp only [consumeLoop, h0, if_true] at h
        exact Option.noConfusion h
      · have h0f : stop i = false := by
          cases hb : stop i
          · rfl
          · exact absurd hb h0
        simp only [consumeLoop, h0f, Bool.false_eq_true, if_false] at h ⊢
        rw [consumeLoop_none_role tt stop rest (i + 1) (processChunk tt i c s) h,
          processChunk_role]
        simp [List.foldl_cons]

theorem consumeLoop_events_ext (tt : Bool) (stop : Nat → Bool) :
    ∀ (chunks : List StreamChunk) (i : Nat) (s : LoopState),
      ∃ t, (consumeLoop tt stop chunks i s).1.events = s.events ++ t
  | [], _, s => ⟨[], by simp [consumeLoop]⟩
  | c :: rest, i, s => by
      by_cases h0 : stop i = true
      · simp only [consumeLoop, h0, if_true]
        split_ifs <;> simp [processChunk_events]
      · have h0f : stop i = false := by
          cases hb : stop i
          · rfl
          · exact absurd hb h0
        simp only [consumeLoop, h0f, Bool.false_eq_true, if_false]
        obtain ⟨t, ht⟩ :=
          consumeLoop_events_ext tt stop rest (i + 1) (processChunk tt i c s)
        exact ⟨t, by rw [ht, processChunk_events]⟩

theorem consumeLoop_raised_stopped_mem (stop : Nat → Bool) :
    ∀ (chunks : List StreamChunk) (i : Nat) (s : LoopState) (e : Exn),
      (consumeLoop true stop chunks i s).2 = some e →
      MEvent.model_stopped "stop_event_set" ∈ (consumeLoop true stop chunks i s).1.events
  | [], _, _, _, h => by simp [consumeLoop] at h
  | c :: rest, i, s, e, h => by
      by_cases h0 : stop i = true
      · simp only [consumeLoop, h0, if_true, if_true]
        simp
      · have h0f : stop i = false := by
          cases hb : stop i
          · rfl
          · exact absurd hb h0
        simp only [consumeLoop, h0f, Bool.false_eq_true, if_false] at h ⊢
        exact consumeLoop_raised_stopped_mem stop rest (i + 1) (processChunk true i c s) e h

theorem consumeLoop_first_preserved (tt : Bool) (stop : Nat → Bool) :
    ∀ (chunks : List StreamChunk) (i : Nat) (s : LoopState),
      s.first_token_received = true →
      (consumeLoop tt stop chunks i s).1.firstTokenRecords = s.firstTokenRecords ∧
      (consumeLoop tt stop chunks i s).1.firstTokenAt = s.firstTokenAt
  | [], _, _, _ => by simp [consumeLoop]
  | c :: rest, i, s, h => by
      obtain ⟨hrec, hcnt, hat⟩ := processChunk_first_preserved tt i c s h
      by_cases h0 : stop i = true
      · refine ⟨?_, ?_⟩ <;> simp only [consumeLoop, h0, if_true] <;>
          split_ifs <;> simp [hcnt, hat]
      · have h0f : stop i = false := by
          cases hb : stop i
          · rfl
          · exact absurd hb h0
        obtain ⟨ih1, ih2⟩ := consumeLoop_first_preserved tt stop rest (i + 1)
          (processChunk tt i c s) hrec
        refine ⟨?_, ?_⟩ <;>
          simp only [consumeLoop, h0f, Bool.false_eq_true, if_false]
        · rw [ih1, hcnt]
        · rw [ih2, hat]

theorem finishCall_raised (tt : Bool) (st : ModelState) (fault : Option Exn)
    (s : LoopState) (e : Exn) :
    finishCall tt st fault (s, some e) =
      { result := (handleException tt e s).1, state := st,
        events := (handleException tt e s).2,
        firstTokenRecords := s.firstTokenRecords, firstTokenAt := s.firstTokenAt,
        tokenRecords := s.tokenRecords, reasoningSink := s.reasoningSink,
        contentSink := s.contentSink, flushed := false,
        recordedCompletion := none, constructedRole := none,
        chunksProcessed := s.chunk_list.length } := by
  rcases hhe : handleException tt e s with ⟨res, ev⟩
  simp [finishCall, hhe]

theorem finishCall_fault (tt : Bool) (st : ModelState) (s : LoopState) (e : Exn) :
    finishCall tt st (some e) (s, none) =
      { result := (handleException tt e s).1, state := st,
        events := (handleException tt e s).2,
        firstTokenRecords := s.firstTokenRecords, firstTokenAt := s.firstTokenAt,
        tokenRecords := s.tokenRecords, reasoningSink := s.reasoningSink,
        contentSink := s.contentSink, flushed := false,
        recordedCompletion := none, constructedRole := none,
        chunksProcessed := s.chunk_list.length } := by
  rcases hhe : handleException tt e s with ⟨res, ev⟩
  simp [finishCall, hhe]

theorem finishCall_none_none (tt : Bool) (st : ModelState) (s : LoopState) :
    finishCall tt st none (s, none) = finalizeResult tt s := rfl

theorem finalizeResult_ok (tt : Bool) (s : LoopState)
    (h : pyRoleOrDefault s.role = "assistant") :
    finalizeResult tt s =
      { result := Except.ok { role := "assistant", content := String.join s.token_join },
        state := { last_input_token_count := (extractUsage s.chunk_list).1,
                   last_output_token_count := (extractUsage s.chunk_list).2 },
        events :=
          if tt then
            s.events ++
              [MEvent.completion_finished (String.join s.token_join).length
                s.chunk_list.length]
          else s.events,
        firstTokenRecords := s.firstTokenRecords, firstTokenAt := s.firstTokenAt,
        tokenRecords := s.tokenRecords, reasoningSink := s.reasoningSink,
        contentSink := s.contentSink, flushed := true,
        recordedCompletion := if tt then some (extractUsage s.chunk_list) else none,
        constructedRole := some "assistant",
        chunksProcessed := s.chunk_list.length } := by
  unfold finalizeResult
  rw [h]
  simp

theorem finalizeResult_fail_result (tt : Bool) (s : LoopState)
    (h : ¬ pyRoleOrDefault s.role = "assistant") :
    (finalizeResult tt s).result
      = (handleException tt (validationErr (pyRoleOrDefault s.role))
          { s with events :=
              if tt then
                s.events ++
                  [MEvent.completion_finished (String.join s.token_join).length
                    s.chunk_list.length]
              else s.events }).1 := by
  simp only [finalizeResult]
  rw [if_neg h]

theorem finalizeResult_state (tt : Bool) (s : LoopState) :
    (finalizeResult tt s).state
      = { last_input_token_count := (extractUsage s.chunk_list).1,
          last_output_token_count := (extractUsage s.chunk_list).2 } := by
  simp only [finalizeResult]
  split_ifs <;> rfl

theorem finalizeResult_recordedCompletion (tt : Bool) (s : LoopState) :
    (finalizeResult tt s).recordedCompletion
      = (if tt then some (extractUsage s.chunk_list) else none) := by
  simp only [finalizeResult]
  split_ifs <;> rfl

theorem finalizeResult_firstToken (tt : Bool) (s : LoopState) :
    (finalizeResult tt s).firstTokenRecords = s.firstTokenRecords ∧
    (finalizeResult tt s).firstTokenAt = s.firstTokenAt := by
  constructor <;> (simp only [finalizeResult]; split_ifs <;> rfl)

theorem finalizeResult_chunksProcessed (tt : Bool) (s : LoopState) :
    (finalizeResult tt s).chunksProcessed = s.chunk_list.length := by
  simp only [finalizeResult]
  split_ifs <;> rfl

theorem finalizeResult_ok_inv (tt : Bool) (s : LoopState) (m : ChatMessage)
    (h : (finalizeResult tt s).result = Except.ok m) :
    pyRoleOrDefault s.role = "assistant" ∧
    m = { role := "assistant", content := String.join s.token_join } := by
  by_cases hrole : pyRoleOrDefault s.role = "assistant"
  · rw [finalizeResult_ok tt s hrole] at h
    simp only at h
    exact ⟨hrole, ((Except.ok.injEq _ _).mp h).symm⟩
  · exfalso
    rw [finalizeResult_fail_result tt s hrole] at h
    exact handleException_fst_isError _ _ _ m h

theorem finalizeResult_events_ext_true (s : LoopState) :
    ∃ u, (finalizeResult true s).events = s.events ++ u := by
  by_cases hrole : pyRoleOrDefault s.role = "assistant"
  · rw [finalizeResult_ok true s hrole]
    exact ⟨[MEvent.completion_finished (String.join s.token_join).length
      s.chunk_list.length], by simp⟩
  · refine ⟨[MEvent.completion_finished (String.join s.token_join).length
        s.chunk_list.length,
      MEvent.error_occurred (validationErr (pyRoleOrDefault s.role)).type
        (validationErr (pyRoleOrDefault s.role)).msg], ?_⟩
    simp only [finalizeResult]
    rw [if_neg hrole]
    show (handleException true (validationErr (pyRoleOrDefault s.role)) _).2 = _
    rw [handleException_snd]
    simp

theorem finishCall_error_of_raised_or_fault (tt : Bool) (st : ModelState)
    (fault : Option Exn) (p : LoopState × Option Exn) (m : ChatMessage)
    (h : (finishCall tt st fault p).result = Except.ok m) :
    p.2 = none ∧ fault = none := by
  rcases p with ⟨s, r⟩
  cases r with
  | some e =>
      rw [finishCall_raised] at h
      exact absurd h (handleException_fst_isError tt e s m)
  | none =>
      cases fault with
      | some e =>
          rw [finishCall_fault] at h
          exact absurd h (handleException_fst_isError tt e s m)
      | none => exact ⟨rfl, rfl⟩

theorem finishCall_firstToken (tt : Bool) (st : ModelState) (fault : Option Exn)
    (p : LoopState × Option Exn) :
    (finishCall tt st fault p).firstTokenRecords = p.1.firstTokenRecords ∧
    (finishCall tt st fault p).firstTokenAt = p.1.firstTokenAt := by
  rcases p with ⟨s, r⟩
  cases r with
  | some e => rw [finishCall_raised]; exact ⟨rfl, rfl⟩
  | none =>
      cases fault with
      | some e => rw [finishCall_fault]; exact ⟨rfl, rfl⟩
      | none => exact finalizeResult_firstToken tt s

theorem finishCall_chunksProcessed (tt : Bool) (st : ModelState) (fault : Option Exn)
    (p : LoopState × Option Exn) :
    (finishCall tt st fault p).chunksProcessed = p.1.chunk_list.length := by
  rcases p with ⟨s, r⟩
  cases r with
  | some e => rw [finishCall_raised]
  | none =>
      cases fault with
      | some e => rw [finishCall_fault]
      | none => exact finalizeResult_chunksProcessed tt s

theorem hasDelta_eq_false (c : StreamChunk) :
    hasDelta c = false ↔
      c.delta.reasoning_content = none ∧ c.delta.content = none := by
  unfold hasDelta
  cases hrc : c.delta.reasoning_content <;> cases hcc : c.delta.content <;> simp

theorem consumeLoop_skip_nodelta (tt : Bool) (stop : Nat → Bool) :
    ∀ (pre rest : List StreamChunk) (i : Nat) (s : LoopState),
      (∀ c ∈ pre, hasDelta c = false) →
      (∀ k, k < pre.length → stop (i + k) = false) →
      ∃ s2, consumeLoop tt stop (pre ++ rest) i s
              = consumeLoop tt stop rest (i + pre.length) s2 ∧
        s2.first_token_received = s.first_token_received ∧
        s2.firstTokenRecords = s.firstTokenRecords ∧
        s2.firstTokenAt = s.firstTokenAt
  | [], _, i, s, _, _ => ⟨s, by simp, rfl, rfl, rfl⟩
  | c :: pre, rest, i, s, hd, hs => by
      have h0 : stop i = false := by simpa using hs 0 (Nat.succ_pos _)
      obtain ⟨hr, hn⟩ := (hasDelta_eq_false c).mp (hd c (by simp))
      have hs2 : ∀ k, k < pre.length → stop (i + 1 + k) = false := by
        intro k hk
        have := hs (k + 1) (by simpa using Nat.succ_lt_succ hk)
        have harith : i + (k + 1) = i + 1 + k := by omega
        rwa [harith] at this
      obtain ⟨s2, heq, h1, h2, h3⟩ :=
        consumeLoop_skip_nodelta tt stop pre rest (i + 1)
          ({ s with chunk_list := s.chunk_list ++ [c] })
          (fun c2 hc2 => hd c2 (by simp [hc2])) hs2
      refine ⟨s2, ?_, by rw [h1], by rw [h2], by rw [h3]⟩
      have harith : i + 1 + pre.length = i + (c :: pre).length := by
        simp only [List.length_cons]; omega
      rw [List.cons_append]
      simp only [consumeLoop, h0, Bool.false_eq_true, if_false,
        processChunk_nodelta tt i c s hr hn]
      rw [heq, harith]

theorem consumeLoop_first_at_head (stop : Nat → Bool) (c : StreamChunk)
    (post : List StreamChunk) (j : Nat) (s : LoopState)
    (hrecv : s.first_token_received = false) (hc : hasDelta c = true) :
    (consumeLoop true stop (c :: post) j s).1.firstTokenRecords
        = s.firstTokenRecords + 1 ∧
    (consumeLoop true stop (c :: post) j s).1.firstTokenAt = some j := by
  obtain ⟨p1, p2, p3⟩ := processChunk_records_first j c s hrecv hc
  by_cases h0 : stop j = true
  · constructor <;> simp only [consumeLoop, h0, if_true] <;> simp [p2, p3]
  · have h0f : stop j = false := by
      cases hb : stop j
      · rfl
      · exact absurd hb h0
    obtain ⟨q1, q2⟩ := consumeLoop_first_preserved true stop post (j + 1)
      (processChunk true j c s) p1
    constructor <;>
      simp only [consumeLoop, h0f, Bool.false_eq_true, if_false]
    · rw [q1, p2]
    · rw [q2, p3]

theorem call_events_ext (st : ModelState) (chunks : List StreamChunk)
    (stop : Nat → Bool) (fault : Option Exn) :
    ∃ u, (OpenAIModel.call true st chunks stop fault).events
          = MEvent.completion_started :: u := by
  unfold OpenAIModel.call
  obtain ⟨t, ht⟩ := consumeLoop_events_ext true stop chunks 0 (initState true)
  rcases hp : consumeLoop true stop chunks 0 (initState true) with ⟨s, r⟩
  rw [hp] at ht
  have hinit : (initState true).events = [MEvent.completion_started] := rfl
  rw [hinit] at ht
  cases r with
  | some e =>
      refine ⟨t ++ [MEvent.error_occurred e.type e.msg], ?_⟩
      rw [finishCall_raised, handleException_snd] at *
      simp only [if_true]
      show s.events ++ _ = _
      rw [ht]
      simp
  | none =>
      cases fault with
      | some e =>
          refine ⟨t ++ [MEvent.error_occurred e.type e.msg], ?_⟩
          rw [finishCall_fault, handleException_snd] at *
          simp only [if_true]
          show s.events ++ _ = _
          rw [ht]
          simp
      | none =>
          obtain ⟨u2, hu2⟩ := finalizeResult_events_ext_true s
          refine ⟨t ++ u2, ?_⟩
          rw [finishCall_none_none, hu2, ht]
          simp

/-- Concrete sample chunks used to instantiate the theorems. -/
def chunkHel : StreamChunk := ⟨⟨some "Hel", none, none⟩, none⟩

def chunkLo : StreamChunk := ⟨⟨some "lo", none, none⟩, none⟩

def chunkUsage52 : StreamChunk := ⟨⟨none, none, none⟩, some ⟨5, some 2, 7⟩⟩

def chunkEmpty : StreamChunk := ⟨⟨none, none, none⟩, none⟩

def chunkThink : StreamChunk := ⟨⟨none, some "mm", none⟩, none⟩

def chunkRoleUser : StreamChunk := ⟨⟨some "a", none, some "user"⟩, none⟩

def chunkRoleAsst : StreamChunk := ⟨⟨some "b", none, some "assistant"⟩, none⟩

/-- Stop-event readings that are never set. -/
def neverStop : Nat → Bool := fun _ => false

/-- Stop-event readings that are set from the very beginning. -/
def alwaysStop : Nat → Bool := fun _ => true

/-- Stop-event readings of a signal that becomes set after the first
chunk has been processed and checked. -/
def stopAfterFirst : Nat → Bool := fun k => decide (1 ≤ k)

def st0 : ModelState := ⟨0, 0⟩

/-- C1, counterexample.  The claim says a pre-set cancellation signal
causes the cancellation error "regardless of how many chunks (including
zero) the transport delivers".  The stop event is polled only inside the
per-chunk loop body, so with zero delivered chunks a pre-set signal is
never observed and the call returns a successful (empty) result. -/
theorem call_stop_set_zero_chunks_returns_ok :
    (OpenAIModel.call true st0 [] alwaysStop none).result
      = Except.ok { role := "assistant", content := "" } := by rfl

/-- C1, amended.  If the cancellation signal reads set at some
per-chunk check (index `k` within the delivered chunks), the call
raises the cancellation-interruption `RuntimeError` and never returns a
successful result; this requires at least one delivered chunk, since
the signal is polled once per received chunk. -/
theorem call_stop_during_consumption_raises (tt : Bool) (st : ModelState)
    (chunks : List StreamChunk) (stop : Nat → Bool) (fault : Option Exn)
    (k : Nat) (hk : k < chunks.length) (hs : stop k = true) :
    (OpenAIModel.call tt st chunks stop fault).result = Except.error stopExn := by
  unfold OpenAIModel.call
  have hs0 : stop (0 + k) = true := by simpa using hs
  obtain ⟨h1, _⟩ :=
    consumeLoop_stop_bound tt stop chunks 0 k (initState tt) hk hs0
  rcases hp : consumeLoop tt stop chunks 0 (initState tt) with ⟨s, r⟩
  rw [hp] at h1
  simp only at h1
  subst h1
  rw [finishCall_raised, handleException_fst]
  have hmarker : strContains stopExn.msg "context_length_exceeded" = false := by rfl
  simp [hmarker]

/-- C1, witness for the amended theorem: one chunk, signal set before
consumption begins. -/
theorem call_stop_during_consumption_raises_witness :
    (OpenAIModel.call true st0 [chunkHel] alwaysStop none).result
      = Except.error stopExn :=
  call_stop_during_consumption_raises true st0 [chunkHel] alwaysStop none 0
    (by decide) rfl

theorem foldl_roleStep_none (chunks : List StreamChunk)
    (h : ∀ c ∈ chunks, c.delta.role = none) :
    chunks.foldl roleStep none = none := by
  induction chunks with
  | nil => rfl
  | cons c rest ih =>
      have hc : c.delta.role = none := h c (by simp)
      have hstep : roleStep none c = none := by
        unfold roleStep
        split_ifs <;> simp [hc]
      rw [List.foldl_cons, hstep]
      exact ih (fun c2 hc2 => h c2 (by simp [hc2]))

/-- C2: for a chunk sequence containing only content deltas — every
chunk carries a content delta and nothing else, no reasoning delta and
no role tag — consumed with the stop event never set and no transport
fault, the returned message content is the concatenation of the deltas
in arrival order. -/
theorem content_concat_in_order (tt : Bool) (st : ModelState)
    (chunks : List StreamChunk) (stop : Nat → Bool)
    (hcontent : ∀ c ∈ chunks,
      c.delta.content.isSome = true ∧ c.delta.reasoning_content = none ∧
      c.delta.role = none)
    (hstop : ∀ k, k < chunks.length → stop k = false) :
    (OpenAIModel.call tt st chunks stop none).result
      = Except.ok
          { role := "assistant",
            content := String.join (chunks.filterMap (fun c => c.delta.content)) } := by
  unfold OpenAIModel.call
  obtain ⟨h1, h2, _, _, h5⟩ :=
    consumeLoop_no_stop tt stop chunks 0 (initState tt) (by simpa using hstop)
  rcases hp : consumeLoop tt stop chunks 0 (initState tt) with ⟨s, r⟩
  rw [hp] at h1 h2 h5
  simp only at h1 h2 h5
  subst h1
  rw [finishCall_none_none]
  have hsrole : s.role = none := by
    rw [h5]
    exact foldl_roleStep_none chunks (fun c hc => (hcontent c hc).2.2)
  have hrole : pyRoleOrDefault s.role = "assistant" := by
    rw [hsrole]
    rfl
  rw [finalizeResult_ok tt s hrole]
  simp only
  have hjoin : s.token_join = chunks.filterMap (fun c => c.delta.content) := by
    rw [h2]; rfl
  rw [hjoin]

/-- C2, witness: two content chunks concatenate to "Hello". -/
theorem content_concat_in_order_witness :
    (OpenAIModel.call true st0 [chunkHel, chunkLo] neverStop none).result
      = Except.ok { role := "assistant", content := "Hello" } := by
  have h := content_concat_in_order true st0 [chunkHel, chunkLo] neverStop
    (by decide) (fun _ _ => rfl)
  exact h

/-- C3: a transport fault raised during stream consumption (with the
stop event never observed set) is re-raised as
`ValueError "Token limit exceeded: ..."` when its message contains
`context_length_exceeded`, and re-raised unchanged otherwise. -/
theorem fault_classification (tt : Bool) (st : ModelState)
    (chunks : List StreamChunk) (stop : Nat → Bool) (e : Exn)
    (hstop : ∀ k, k < chunks.length → stop k = false) :
    (OpenAIModel.call tt st chunks stop (some e)).result
      = (if strContains e.msg "context_length_exceeded" then
          Except.error { type := "ValueError", msg := "Token limit exceeded: " ++ e.msg }
        else Except.error e) := by
  unfold OpenAIModel.call
  obtain ⟨h1, _⟩ :=
    consumeLoop_no_stop tt stop chunks 0 (initState tt) (by simpa using hstop)
  rcases hp : consumeLoop tt stop chunks 0 (initState tt) with ⟨s, r⟩
  rw [hp] at h1
  simp only at h1
  subst h1
  rw [finishCall_fault]
  exact handleException_fst tt e s

/-- C3, witness: a fault whose message contains the marker becomes the
token-limit `ValueError`. -/
theorem fault_classification_witness :
    (OpenAIModel.call true st0 [chunkHel] neverStop
        (some ⟨"BadRequestError", "err: context_length_exceeded."⟩)).result
      = Except.error
          ⟨"ValueError", "Token limit exceeded: err: context_length_exceeded."⟩ := by
  have h := fault_classification true st0 [chunkHel] neverStop
    ⟨"BadRequestError", "err: context_length_exceeded."⟩ (fun _ _ => rfl)
  rw [h]
  rfl

/-- C4: on a run that completes normally (stop event never observed set,
no transport fault), the reported token counts of the model are exactly
the usage extraction of the delivered chunks: the prompt-token count and
the completion-token count of the terminal chunk (total-token count when
the completion-token field is absent), and (0, 0) when there is no
terminal chunk or it carries no usage summary; with a tracker present
the same pair is reported to `record_completion`. -/
theorem usage_extraction_correct (tt : Bool) (st : ModelState)
    (chunks : List StreamChunk) (stop : Nat → Bool)
    (hstop : ∀ k, k < chunks.length → stop k = false) :
    (OpenAIModel.call tt st chunks stop none).state
      = { last_input_token_count := (extractUsage chunks).1,
          last_output_token_count := (extractUsage chunks).2 } ∧
    (OpenAIModel.call tt st chunks stop none).recordedCompletion
      = (if tt then some (extractUsage chunks) else none) := by
  unfold OpenAIModel.call
  obtain ⟨h1, _, h3, _, _⟩ :=
    consumeLoop_no_stop tt stop chunks 0 (initState tt) (by simpa using hstop)
  rcases hp : consumeLoop tt stop chunks 0 (initState tt) with ⟨s, r⟩
  rw [hp] at h1 h3
  simp only at h1 h3
  subst h1
  rw [finishCall_none_none]
  have hcl : s.chunk_list = chunks := by
    rw [h3]; rfl
  rw [finalizeResult_state, finalizeResult_recordedCompletion, hcl]
  exact ⟨rfl, rfl⟩

/-- C4, witness: the 3-chunk scenario from the spec — content "Hel",
content "lo", then a usage-only terminal chunk with prompt 5 and
completion 2 — yields content "Hello", input tokens 5, output tokens 2,
role "assistant". -/
theorem usage_extraction_correct_witness :
    (OpenAIModel.call true st0 [chunkHel, chunkLo, chunkUsage52] neverStop none).state
      = { last_input_token_count := 5, last_output_token_count := 2 } ∧
    (OpenAIModel.call true st0 [chunkHel, chunkLo, chunkUsage52] neverStop
        none).recordedCompletion = some (5, 2) ∧
    (OpenAIModel.call true st0 [chunkHel, chunkLo, chunkUsage52] neverStop none).result
      = Except.ok { role := "assistant", content := "Hello" } := by
  have h := usage_extraction_correct true st0 [chunkHel, chunkLo, chunkUsage52]
    neverStop (fun _ _ => rfl)
  exact ⟨h.1, h.2, rfl⟩

/-- C5: with a metrics collector present, if the chunk at index
`pre.length` is the first one carrying a delta of either kind (all
earlier chunks carry none) and the stop event is not observed set
before that chunk is processed, then first-token latency is recorded
exactly once over the whole invocation, and the single recording
happens at that first delta-bearing chunk — regardless of how many
further deltas arrive, of later stop readings, and of any transport
fault. -/
theorem first_token_recorded_once (st : ModelState) (pre post : List StreamChunk)
    (c : StreamChunk) (stop : Nat → Bool) (fault : Option Exn)
    (hpre : ∀ c2 ∈ pre, hasDelta c2 = false) (hc : hasDelta c = true)
    (hstop : ∀ k, k < pre.length → stop k = false) :
    (OpenAIModel.call true st (pre ++ c :: post) stop fault).firstTokenRecords = 1 ∧
    (OpenAIModel.call true st (pre ++ c :: post) stop fault).firstTokenAt
      = some pre.length := by
  unfold OpenAIModel.call
  obtain ⟨s2, heq, h1, h2, _⟩ :=
    consumeLoop_skip_nodelta true stop pre (c :: post) 0 (initState true) hpre
      (by simpa using hstop)
  obtain ⟨f1, f2⟩ :=
    finishCall_firstToken true st fault
      (consumeLoop true stop (c :: post) (0 + pre.length) s2)
  have hrecv : s2.first_token_received = false := by
    rw [h1]; rfl
  obtain ⟨g1, g2⟩ :=
    consumeLoop_first_at_head stop c post (0 + pre.length) s2 hrecv hc
  constructor
  · rw [heq, f1, g1, h2]
    rfl
  · rw [heq, f2, g2]
    simp

/-- C5, witness: a delta-less chunk, then a reasoning chunk, then a
content chunk — the tracker records first-token latency once, at
index 1. -/
theorem first_token_recorded_once_witness :
    (OpenAIModel.call true st0 [chunkEmpty, chunkThink, chunkHel] neverStop
        none).firstTokenRecords = 1 ∧
    (OpenAIModel.call true st0 [chunkEmpty, chunkThink, chunkHel] neverStop
        none).firstTokenAt = some 1 := by
  have h := first_token_recorded_once st0 [chunkEmpty] [chunkHel] chunkThink
    neverStop none (by decide) (by decide) (fun _ _ => rfl)
  exact h

/-- C6, counterexample.  The claim says the role of the returned message
is resolved from the role tag carried by a content-bearing chunk and,
once resolved, not changed by later chunks.  In the sequence below the
first content-bearing chunk is tagged "user"; a later content chunk is
tagged "assistant", so the internal variable is overwritten (line 89),
the `ChatCompletionMessage` constructor accepts the final tag, and the
returned role is "assistant" — not the first resolved tag "user".
(A run whose last tag stays "user" does not return at all: the
constructor raises a pydantic `ValidationError`.) -/
theorem role_from_chunk_counterexample :
    (OpenAIModel.call false st0 [chunkRoleUser, chunkRoleAsst] neverStop none).result
      = Except.ok { role := "assistant", content := "ab" } ∧
    "assistant" ≠ "user" :=
  ⟨rfl, by decide⟩

/-- C6, amended: every content-bearing chunk overwrites the internal
`role` variable with its own role tag (last one wins, possibly
resetting it to null); the message is constructed with that tag, with
"assistant" substituted when the tag is null or empty (Python
truthiness), and construction only succeeds when that value is
"assistant" — any other tag makes the pydantic
`Literal["assistant"]` validation raise — so the role of every
successfully returned message is "assistant" (additionally overwritten
with the assistant role after construction, line 135). -/
theorem role_always_assistant (tt : Bool) (st : ModelState)
    (chunks : List StreamChunk) (stop : Nat → Bool) (fault : Option Exn)
    (m : ChatMessage)
    (h : (OpenAIModel.call tt st chunks stop fault).result = Except.ok m) :
    m.role = "assistant" ∧
    (OpenAIModel.call tt st chunks stop fault).constructedRole
      = some (pyRoleOrDefault (chunks.foldl roleStep none)) ∧
    pyRoleOrDefault (chunks.foldl roleStep none) = "assistant" := by
  unfold OpenAIModel.call at h ⊢
  obtain ⟨hr, hf⟩ := finishCall_error_of_raised_or_fault tt st fault
    (consumeLoop tt stop chunks 0 (initState tt)) m h
  rcases hp : consumeLoop tt stop chunks 0 (initState tt) with ⟨s, r⟩
  rw [hp] at h hr
  simp only at hr
  subst hr
  subst hf
  rw [finishCall_none_none] at h ⊢
  have hsrole : s.role = chunks.foldl roleStep none := by
    have hnr := consumeLoop_none_role tt stop chunks 0 (initState tt) (by rw [hp])
    rw [hp] at hnr
    simp only at hnr
    exact hnr
  obtain ⟨hok, hm⟩ := finalizeResult_ok_inv tt s m h
  have hfold : pyRoleOrDefault (chunks.foldl roleStep none) = "assistant" := by
    rw [← hsrole]
    exact hok
  refine ⟨?_, ?_, hfold⟩
  · rw [hm]
  · rw [finalizeResult_ok tt s hok]
    simp only
    rw [hfold]

/-- C6, witness for the amended theorem: two content chunks tagged
"user" then "assistant" — the constructed role is the last tag
"assistant" (so construction succeeds) and the returned role is
"assistant", not the first tag "user". -/
theorem role_always_assistant_witness :
    ({ role := "assistant", content := "ab" } : ChatMessage).role = "assistant" ∧
    (OpenAIModel.call true st0 [chunkRoleUser, chunkRoleAsst] neverStop
        none).constructedRole
      = some (pyRoleOrDefault ([chunkRoleUser, chunkRoleAsst].foldl roleStep none)) ∧
    pyRoleOrDefault ([chunkRoleUser, chunkRoleAsst].foldl roleStep none)
      = "assistant" :=
  role_always_assistant true st0 [chunkRoleUser, chunkRoleAsst] neverStop none
    { role := "assistant", content := "ab" } (by rfl)

/-- C7, counterexample.  The claim quantifies over every invocation,
but every monitoring emission in `__call__` is guarded by
`if token_tracker`: an invocation without a metrics collector completes
normally yet emits no events at all — in particular no
"completion_started" and no "completion_finished". -/
theorem events_absent_without_tracker :
    (OpenAIModel.call false st0 [chunkHel] neverStop none).events = [] ∧
    (OpenAIModel.call false st0 [chunkHel] neverStop none).result
      = Except.ok { role := "assistant", content := "Hel" } :=
  ⟨rfl, rfl⟩

/-- C7, amended: for every invocation with a metrics collector present,
the events are emitted at their defined points — "completion_started"
is the first event; "model_stopped" with reason "stop_event_set" is
emitted whenever consumption is aborted by the cancellation signal;
"error_occurred" carrying the fault type and message is emitted on a
transport fault; and "completion_finished" is the last event on normal
completion. -/
theorem monitoring_events_with_tracker (st : ModelState)
    (chunks : List StreamChunk) (stop : Nat → Bool) (fault : Option Exn) :
    (OpenAIModel.call true st chunks stop fault).events.head?
      = some MEvent.completion_started ∧
    ((∃ k, k < chunks.length ∧ stop k = true) →
      MEvent.model_stopped "stop_event_set"
        ∈ (OpenAIModel.call true st chunks stop fault).events) ∧
    (∀ e, fault = some e → (∀ k, k < chunks.length → stop k = false) →
      MEvent.error_occurred e.type e.msg
        ∈ (OpenAIModel.call true st chunks stop fault).events) ∧
    (∀ m, (OpenAIModel.call true st chunks stop fault).result = Except.ok m →
      ∃ ol cc, (OpenAIModel.call true st chunks stop fault).events.getLast?
        = some (MEvent.completion_finished ol cc)) := by
  refine ⟨?_, ?_, ?_, ?_⟩
  · obtain ⟨u, hu⟩ := call_events_ext st chunks stop fault
    rw [hu]
    rfl
  · rintro ⟨k, hk, hsk⟩
    unfold OpenAIModel.call
    have hs0 : stop (0 + k) = true := by simpa using hsk
    obtain ⟨h1, _⟩ :=
      consumeLoop_stop_bound true stop chunks 0 k (initState true) hk hs0
    have hmem := consumeLoop_raised_stopped_mem stop chunks 0 (initState true)
      stopExn h1
    rcases hp : consumeLoop true stop chunks 0 (initState true) with ⟨s, r⟩
    rw [hp] at h1 hmem
    simp only at h1 hmem
    subst h1
    rw [finishCall_raised, handleException_snd]
    simp only [if_true]
    exact List.mem_append_left _ hmem
  · rintro e rfl hstop
    unfold OpenAIModel.call
    obtain ⟨h1, _⟩ :=
      consumeLoop_no_stop true stop chunks 0 (initState true) (by simpa using hstop)
    rcases hp : consumeLoop true stop chunks 0 (initState true) with ⟨s, r⟩
    rw [hp] at h1
    simp only at h1
    subst h1
    rw [finishCall_fault, handleException_snd]
    simp only [if_true]
    exact List.mem_append_right _ (by simp)
  · intro m hm
    unfold OpenAIModel.call at hm ⊢
    obtain ⟨hr, hf⟩ := finishCall_error_of_raised_or_fault true st fault
      (consumeLoop true stop chunks 0 (initState true)) m hm
    rcases hp : consumeLoop true stop chunks 0 (initState true) with ⟨s, r⟩
    rw [hp] at hr hm
    simp only at hr
    subst hr
    subst hf
    rw [finishCall_none_none] at hm ⊢
    obtain ⟨hok, _⟩ := finalizeResult_ok_inv true s m hm
    rw [finalizeResult_ok true s hok]
    refine ⟨(String.join s.token_join).length, s.chunk_list.length, ?_⟩
    simp only [if_true]
    exact List.getLast?_concat _

/-- C7, witness for the amended theorem: the cancellation
scenario — the signal becomes set after the first of three chunks — a
"model_stopped" event with reason "stop_event_set" is emitted. -/
theorem monitoring_events_with_tracker_witness :
    MEvent.model_stopped "stop_event_set"
      ∈ (OpenAIModel.call true st0 [chunkHel, chunkLo, chunkUsage52]
          stopAfterFirst none).events :=
  (monitoring_events_with_tracker st0 [chunkHel, chunkLo, chunkUsage52]
    stopAfterFirst none).2.1 ⟨1, by decide, rfl⟩

/-- C8: the connectivity probe returns a plain boolean: `true` exactly
when the underlying non-streaming request on the one-message test
conversation succeeds, `false` whenever the transport raises — the
exception is absorbed, never propagated (the probe is total with
result type `Bool`). -/
theorem check_connectivity_never_raises
    (create : List (String × String) → Except Exn Unit) :
    (∀ u, create [("user", "Hello")] = Except.ok u →
      check_connectivity create = true) ∧
    (∀ e, create [("user", "Hello")] = Except.error e →
      check_connectivity create = false) := by
  constructor <;> intro x hx <;> simp [check_connectivity, hx]

/-- C8, witness: a transport that raises yields `false`, not an
exception. -/
theorem check_connectivity_never_raises_witness :
    check_connectivity (fun _ => Except.error ⟨"APIConnectionError", "boom"⟩)
      = false :=
  (check_connectivity_never_raises
      (fun _ => Except.error ⟨"APIConnectionError", "boom"⟩)).2
    ⟨"APIConnectionError", "boom"⟩ rfl

/-- C9: the stop event is polled once per received chunk, so if its
reading is set at the check following chunk `k`, the loop raises the
cancellation error and at most `k + 1` chunks ever enter the chunk
history — at most one chunk beyond the point where the signal was
set. -/
theorem cancellation_within_one_iteration (tt : Bool) (st : ModelState)
    (chunks : List StreamChunk) (stop : Nat → Bool) (fault : Option Exn)
    (k : Nat) (hk : k < chunks.length) (hs : stop k = true) :
    (OpenAIModel.call tt st chunks stop fault).result = Except.error stopExn ∧
    (OpenAIModel.call tt st chunks stop fault).chunksProcessed ≤ k + 1 := by
  constructor
  · exact call_stop_during_consumption_raises tt st chunks stop fault k hk hs
  · unfold OpenAIModel.call
    have hs0 : stop (0 + k) = true := by simpa using hs
    obtain ⟨h1, h2⟩ :=
      consumeLoop_stop_bound tt stop chunks 0 k (initState tt) hk hs0
    rw [finishCall_chunksProcessed]
    have hinit : (initState tt).chunk_list.length = 0 := by
      unfold initState
      rfl
    rw [hinit] at h2
    omega

/-- C9, witness: three chunks, signal set from the second check onward —
the call errors and at most two chunks are processed. -/
theorem cancellation_within_one_iteration_witness :
    (OpenAIModel.call true st0 [chunkHel, chunkLo, chunkUsage52] stopAfterFirst
        none).result = Except.error stopExn ∧
    (OpenAIModel.call true st0 [chunkHel, chunkLo, chunkUsage52] stopAfterFirst
        none).chunksProcessed ≤ 2 :=
  cancellation_within_one_iteration true st0 [chunkHel, chunkLo, chunkUsage52]
    stopAfterFirst none 1 (by decide) rfl

/-- C10, counterexample.  The claim says the token-count fields are
written only on the successful completion path, so any faulted call
leaves them holding the values of the last successful invocation.  In
fact lines 111-115 write them during finalization, before the
`ChatCompletionMessage` construction of line 130 — and that
construction can raise: a "user" role tag fails the pydantic
`Literal["assistant"]` validation.  Starting from fields (42, 7), the
call below ends in a `ValidationError`, yet the fields have been
overwritten to (0, 0). -/
theorem token_counts_changed_on_construction_fault :
    (OpenAIModel.call true ⟨42, 7⟩ [chunkRoleUser] neverStop none).result
      = Except.error (validationErr "user") ∧
    (OpenAIModel.call true ⟨42, 7⟩ [chunkRoleUser] neverStop none).state
      = ⟨0, 0⟩ ∧
    (⟨0, 0⟩ : ModelState) ≠ ⟨42, 7⟩ :=
  ⟨rfl, rfl, by decide⟩

/-- C10, amended: the token-count fields are unchanged by any fault
raised before finalization — a cancellation interruption or a transport
fault during streaming — so after such a fault they still hold the
values left by the most recent finalized call.  They are not written
only on success, however: once finalization runs (stop event never
observed set, no transport fault) the fields are overwritten with the
usage extracted from the current run, even when the message
construction of line 130 subsequently raises. -/
theorem token_counts_written_at_finalization (tt : Bool) (st : ModelState)
    (chunks : List StreamChunk) (stop : Nat → Bool) (fault : Option Exn) :
    ((∃ k, k < chunks.length ∧ stop k = true) →
      (OpenAIModel.call tt st chunks stop fault).state = st) ∧
    ((∀ k, k < chunks.length → stop k = false) → fault.isSome = true →
      (OpenAIModel.call tt st chunks stop fault).state = st) ∧
    ((∀ k, k < chunks.length → stop k = false) → fault = none →
      (OpenAIModel.call tt st chunks stop fault).state
        = { last_input_token_count := (extractUsage chunks).1,
            last_output_token_count := (extractUsage chunks).2 }) := by
  refine ⟨?_, ?_, ?_⟩
  · rintro ⟨k, hk, hsk⟩
    unfold OpenAIModel.call
    have hs0 : stop (0 + k) = true := by simpa using hsk
    obtain ⟨h1, _⟩ :=
      consumeLoop_stop_bound tt stop chunks 0 k (initState tt) hk hs0
    rcases hp : consumeLoop tt stop chunks 0 (initState tt) with ⟨s, r⟩
    rw [hp] at h1
    simp only at h1
    subst h1
    rw [finishCall_raised]
  · intro hstop hf
    unfold OpenAIModel.call
    obtain ⟨h1, _⟩ :=
      consumeLoop_no_stop tt stop chunks 0 (initState tt) (by simpa using hstop)
    rcases hp : consumeLoop tt stop chunks 0 (initState tt) with ⟨s, r⟩
    rw [hp] at h1
    simp only at h1
    subst h1
    cases fault with
    | none => simp at hf
    | some e => rw [finishCall_fault]
  · intro hstop hf
    subst hf
    unfold OpenAIModel.call
    obtain ⟨h1, _, h3, _, _⟩ :=
      consumeLoop_no_stop tt stop chunks 0 (initState tt) (by simpa using hstop)
    rcases hp : consumeLoop tt stop chunks 0 (initState tt) with ⟨s, r⟩
    rw [hp] at h1 h3
    simp only at h1 h3
    subst h1
    rw [finishCall_none_none, finalizeResult_state]
    have hcl : s.chunk_list = chunks := by
      rw [h3]; rfl
    rw [hcl]

/-- C10, witness for the amended theorem: a transport fault leaves the
fields at their prior values 42 / 7. -/
theorem token_counts_written_at_finalization_witness :
    (OpenAIModel.call true ⟨42, 7⟩ [chunkHel] neverStop
        (some ⟨"APIError", "boom"⟩)).state = ⟨42, 7⟩ :=
  (token_counts_written_at_finalization true ⟨42, 7⟩ [chunkHel] neverStop
    (some ⟨"APIError", "boom"⟩)).2.1 (fun _ _ => rfl) rfl

end Nexent
